import Mathlib

/-!
Verification of the Moxy Rates Template Transfer core against its
natural-language specification.

The Python sources are shallowly embedded: pandas DataFrames become
`Frame` (an ordered column list plus rows represented as ordered
association lists of cells), `None`/`NaN` cells become `Option.none`,
Python dicts become insertion-ordered association lists, and each
Python function under test is translated statement by statement into an
executable Lean definition.  Theorems at the end of the file settle the
individual specification claims.
-/

namespace MoxyRates

/-! ## String helpers (models of the Python string primitives used) -/

/-- Model of Python `str.lower()` (sources only use ASCII names). -/
def strLower (s : String) : String := ⟨s.data.map Char.toLower⟩

/-- Model of Python `str.upper()`. -/
def strUpper (s : String) : String := ⟨s.data.map Char.toUpper⟩

/-- Strip leading and trailing whitespace from a character list. -/
def charsTrim (l : List Char) : List Char :=
  ((l.dropWhile Char.isWhitespace).reverse.dropWhile Char.isWhitespace).reverse

/-- Model of Python `str.strip()`. -/
def strTrim (s : String) : String := ⟨charsTrim s.data⟩

/-- The digit characters of a string, in order: model of
`''.join(c for c in s if c.isdigit())`. -/
def digitsOf (s : String) : String := ⟨s.data.filter Char.isDigit⟩

/-- Decimal value of a digit string: model of Python `int` on a digit
string. -/
def digitsToNat (s : String) : Nat :=
  s.data.foldl (fun n c => n * 10 + (c.toNat - 48)) 0

/-- Substring test on character lists (empty pattern always matches). -/
def charsContains : List Char → List Char → Bool
  | s, pat =>
    if pat.isPrefixOf s then true
    else
      match s with
      | [] => false
      | _ :: t => charsContains t pat

/-- Model of the Python substring test `pat in s`. -/
def strContains (s pat : String) : Bool := charsContains s.data pat.data

/-! ## Association lists (models of Python dicts, insertion ordered) -/

/-- First value bound to key `k`, if any: model of `d.get(k)`. -/
def lookupA {α : Type} : List (String × α) → String → Option α
  | [], _ => none
  | (k', v) :: rest, k => if k' = k then some v else lookupA rest k

/-- Model of the Python membership test `k in d`. -/
def hasKeyA {α : Type} (l : List (String × α)) (k : String) : Bool :=
  (lookupA l k).isSome

/-- Model of the Python dict assignment `d[k] = v`: an existing binding
is updated in place, a new key is appended at the end. -/
def upsertA {α : Type} (k : String) (v : α) : List (String × α) → List (String × α)
  | [] => [(k, v)]
  | (k', v') :: rest =>
    if k' = k then (k, v) :: rest else (k', v') :: upsertA k v rest

/-- The values of an association list, in order: model of `d.values()`. -/
def valuesA {α : Type} (l : List (String × α)) : List α := l.map Prod.snd

/-! ## Tabular data model

A `Frame` models a pandas DataFrame: an ordered list of column names
and a list of rows.  Each row is an ordered association list from
column name to `Cell`; a `Cell` of `none` models `NaN`/`None`, and
`some s` a (string) value, so Python's `pd.notna` becomes `Option.isSome`.
-/

abbrev Cell := Option String

abbrev RowN := List (String × Cell)

structure Frame where
  cols : List String
  rows : List RowN
deriving Repr, DecidableEq

/-- The cell of row `r` in column `c`: model of `row.get(c)` (absent
column reads as `None`). -/
def cellOf (r : RowN) (c : String) : Cell := (lookupA r c).getD none

/-- Model of pandas `df.empty` (some axis has length zero). -/
def frameIsEmpty (f : Frame) : Bool := f.rows.isEmpty || f.cols.isEmpty

/-- Prefix test: model of Python `str.startswith`. -/
def strStarts (s pat : String) : Bool := pat.data.isPrefixOf s.data

/-- Decimal rendering of a natural number (model of Python `str(int)`),
written with explicit fuel so it reduces in the kernel. -/
def natToStrCore : Nat → Nat → List Char
  | 0, _ => []
  | fuel + 1, n =>
    if n < 10 then [Char.ofNat (48 + n)]
    else natToStrCore fuel (n / 10) ++ [Char.ofNat (48 + n % 10)]

def natToStr (n : Nat) : String := ⟨natToStrCore (n + 1) n⟩

/-! ## DataProcessor.transform_data (src/data_processor.py lines 90-291)

The transform is translated step by step.  `mapping` is the Python dict
`mapping` (template field → source column) as an insertion-ordered
association list.
-/

/-- STEP 2 of `transform_data` (lines 117-137): if `Deductible` or
`RateCost` is missing from the mapping, auto-assign them from mapping
keys whose lowercased name contains `deduct`, resp. one of
`rate`/`cost`/`premium`. -/
def autoDetectTD (mapping : List (String × String)) : List (String × String) :=
  if hasKeyA mapping "Deductible" && hasKeyA mapping "RateCost" then mapping
  else
    let keys := mapping.map Prod.fst
    let deductibleCols := keys.filter (fun k => strContains (strLower k) "deduct")
    let costCols := keys.filter (fun k =>
      strContains (strLower k) "rate" || strContains (strLower k) "cost" ||
        strContains (strLower k) "premium")
    let m1 :=
      if !hasKeyA mapping "Deductible" then
        match deductibleCols with
        | [] => mapping
        | c :: _ => upsertA "Deductible" c mapping
      else mapping
    let m2 :=
      if !hasKeyA m1 "RateCost" then
        match costCols with
        | [] => m1
        | c :: _ => upsertA "RateCost" c m1
      else m1
    m2

/-- STEP 3 (lines 139-144): inverse mapping, keeping entries whose field
and source column are non-empty and whose source column exists. -/
def inverseMappingOf (sourceCols : List String) (mapping : List (String × String)) :
    List (String × String) :=
  mapping.filter (fun p => p.2 ≠ "" && p.1 ≠ "" && sourceCols.contains p.2)

/-- A renamed dataframe (STEP 4): all cells are strings because every
copied column goes through `fillna('')`. -/
structure SFrame where
  cols : List String
  rows : List (List (String × String))
deriving Repr, DecidableEq

/-- STEP 4 (lines 154-162): copy each mapped source column under its
template field name, `fillna('')`. -/
def renameFrame (source : Frame) (inv : List (String × String)) : SFrame :=
  { cols := inv.map Prod.fst
    rows := source.rows.map (fun r => inv.map (fun p => (p.1, (cellOf r p.2).getD ""))) }

/-- Reinterpret a renamed dataframe as a `Frame` (string cells are
non-null). -/
def sframeToFrame (s : SFrame) : Frame :=
  { cols := s.cols, rows := s.rows.map (fun r => r.map (fun p => (p.1, some p.2))) }

/-- One aggregate row of the pivot: a dict from column name to value. -/
abbrev Entry := List (String × String)

/-- The pivot accumulator `grouped_data`: composite key → aggregate row,
in insertion order. -/
abbrev Agg := List (String × Entry)

/-- Key parts of a row (lines 192-198): string form of each grouping
column, empty string for a missing value. -/
def rowKeyParts (groupCols : List String) (r : List (String × String)) : List String :=
  groupCols.map (fun c => (lookupA r c).getD "")

/-- Model of `"||".join(parts)`. -/
def joinSep (sep : String) : List String → String
  | [] => ""
  | [x] => x
  | x :: xs => x ++ sep ++ joinSep sep xs

/-- Composite grouping key of a row (line 200). -/
def rowKey (groupCols : List String) (r : List (String × String)) : String :=
  joinSep "||" (rowKeyParts groupCols r)

/-- Update the entry stored under key `k` (model of
`grouped_data[key][c] = v`). -/
def mapAtKey (agg : Agg) (k : String) (f : Entry → Entry) : Agg :=
  agg.map (fun p => if p.1 = k then (p.1, f p.2) else p)

/-- The deductible string of a row (line 204): `str(...).strip()`,
empty for a missing cell. -/
def rowDeductible (r : List (String × String)) : String :=
  strTrim ((lookupA r "Deductible").getD "")

/-- The rate-cost of a row (line 205): `None` when the cell is absent. -/
def rowRateCost (r : List (String × String)) : Option String :=
  lookupA r "RateCost"

/-- Lines 221-229: ensure the accumulator has an entry for the row's
composite key; a fresh entry is the dict of grouping-column values. -/
def aggEnsure (groupCols : List String) (agg : Agg) (r : List (String × String)) : Agg :=
  if hasKeyA agg (rowKey groupCols r) then agg
  else agg ++ [(rowKey groupCols r,
    (groupCols.zip (rowKeyParts groupCols r)).foldl (fun e p => upsertA p.1 p.2 e) [])]

/-- One iteration of the pivot loop (lines 190-244) over accumulator
`agg`.  Rows with an empty/`nan` deductible or a missing rate cost are
skipped; an entry is created for a fresh key before the digit check, so
a deductible with no digits still creates a key-only entry; the write
`aggregate[Deduct<N>] = value` is last-write-wins. -/
def aggStep (groupCols : List String) (agg : Agg) (r : List (String × String)) : Agg :=
  if rowDeductible r = "" ∨ strLower (rowDeductible r) = "nan" ∨ rowRateCost r = none then
    agg
  else if digitsOf (rowDeductible r) = "" then aggEnsure groupCols agg r
  else
    mapAtKey (aggEnsure groupCols agg r) (rowKey groupCols r)
      (upsertA ("Deduct" ++ digitsOf (rowDeductible r)) ((rowRateCost r).getD ""))

/-- The whole pivot pass (lines 186-244). -/
def pivotAgg (groupCols : List String) (rows : List (List (String × String))) : Agg :=
  rows.foldl (aggStep groupCols) []

/-- The value the accumulator holds for composite key `k` in column
`c`. -/
def aggValue (agg : Agg) (k c : String) : Option String :=
  (lookupA agg k).bind (fun e => lookupA e c)

/-- Union of entry keys in first-appearance order: the column order
`pd.DataFrame(list_of_dicts)` produces. -/
def colsUnion (entries : List Entry) : List String :=
  entries.foldl
    (fun acc e => e.foldl (fun a p => if a.contains p.1 then a else a ++ [p.1]) acc) []

/-- Model of `pd.DataFrame(list(grouped_data.values()))` (line 247):
missing keys become null cells. -/
def mkFrame (entries : List Entry) : Frame :=
  let cs := colsUnion entries
  { cols := cs, rows := entries.map (fun e => cs.map (fun c => (c, lookupA e c))) }

/-- The 19 required canonical columns of STEP 7 (lines 263-268). -/
def requiredCols : List String :=
  ["CompanyCode", "Term", "Miles", "FromMiles", "ToMiles", "Coverage",
   "State", "Class", "PlanDeduct", "Markup", "New/Used", "MaxYears",
   "SurchargeCode", "PlanCode", "RateCardCode", "ClassListCode",
   "MinYear", "IncScCode", "IncScAmt"]

/-- The six standard deductible columns of STEP 7 (line 275). -/
def standardDeducts : List String :=
  ["Deduct0", "Deduct50", "Deduct100", "Deduct200", "Deduct250", "Deduct500"]

/-- Append each new column name not already present (the growing
`if col not in result_df.columns` checks). -/
def extendCols (cs : List String) (new : List String) : List String :=
  new.foldl (fun acc c => if acc.contains c then acc else acc ++ [c]) cs

/-- The column list after STEP 7: existing columns, then missing
required columns, then missing standard deductible columns. -/
def finishCols (f : Frame) : List String :=
  extendCols (extendCols f.cols requiredCols) standardDeducts

/-- STEP 7 (lines 262-282): add missing required and standard deductible
columns as empty strings and `fillna('')` every column. -/
def finishFrame (f : Frame) : Frame :=
  { cols := finishCols f
    rows := f.rows.map (fun r =>
      (finishCols f).map (fun c => (c, some ((cellOf r c).getD "")))) }

/-- The inverse mapping `transform_data` builds after auto-detection. -/
def tdInverse (source : Frame) (mapping : List (String × String)) :
    List (String × String) :=
  inverseMappingOf source.cols (autoDetectTD mapping)

/-- The renamed dataframe of STEP 4. -/
def tdRenamed (source : Frame) (mapping : List (String × String)) : SFrame :=
  renameFrame source (tdInverse source mapping)

/-- The grouping columns of STEP 5 (line 168). -/
def tdGroupCols (source : Frame) (mapping : List (String × String)) : List String :=
  (tdRenamed source mapping).cols.filter
    (fun c => !(["Deductible", "RateCost", "PlanDeduct"].contains c))

/-- The pivoted dataframe of STEP 6 before STEP 7. -/
def tdPivot (source : Frame) (mapping : List (String × String)) : Frame :=
  mkFrame (valuesA (pivotAgg (tdGroupCols source mapping) (tdRenamed source mapping).rows))

/-- `DataProcessor.transform_data` (lines 90-291), modulo logging.  All
early exits return the source dataframe (or the renamed dataframe)
unchanged; no exception is raised on unresolvable pivot fields.  The
fallback guard of line 249 is `result_df.empty`, which is true when
either axis has length zero — in particular when every aggregate entry
is an empty dict, so the pivoted frame has rows but no columns. -/
def transform_data (source : Frame) (mapping : List (String × String)) : Frame :=
  if frameIsEmpty source then source
  else if !(hasKeyA (autoDetectTD mapping) "Deductible" &&
      hasKeyA (autoDetectTD mapping) "RateCost") then source
  else if (lookupA (tdInverse source mapping) "Deductible").getD "" = "" ||
      (lookupA (tdInverse source mapping) "RateCost").getD "" = "" then source
  else if !((tdRenamed source mapping).cols.contains "Deductible" &&
      (tdRenamed source mapping).cols.contains "RateCost") then
    sframeToFrame (tdRenamed source mapping)
  else if frameIsEmpty (tdPivot source mapping) then
    sframeToFrame (tdRenamed source mapping)
  else finishFrame (tdPivot source mapping)

/-! ## DataProcessor._add_plan_deduct_column (lines 372-496) -/

/-- Stable ascending insertion into a list sorted by the lexicographic
order Python uses on `(int, str)` tuples. -/
def insertAsc (x : Nat × String) : List (Nat × String) → List (Nat × String)
  | [] => [x]
  | y :: ys =>
    if x.1 < y.1 ∨ (x.1 = y.1 ∧ x.2 < y.2) then x :: y :: ys else y :: insertAsc x ys

/-- Stable sort, model of Python `list.sort()` on `(int, str)` pairs. -/
def sortPairsAsc (l : List (Nat × String)) : List (Nat × String) :=
  l.foldl (fun acc x => insertAsc x acc) []

/-- `deduct_values` (lines 393-404): `(numeric value, column)` pairs of
the deductible columns, sorted. -/
def deductValuesOf (deductCols : List String) : List (Nat × String) :=
  sortPairsAsc (deductCols.filterMap (fun c =>
    let d := digitsOf c
    if d = "" then none else some (digitsToNat d, c)))

/-- First sorted deductible column with a non-null cell, as a string
value (the inner loops of rules 2 and 4). -/
def firstAvailDeduct (dvals : List (Nat × String)) (r : RowN) : Option String :=
  match dvals with
  | [] => none
  | (v, c) :: rest =>
    if (cellOf r c).isSome then some (natToStr v) else firstAvailDeduct rest r

/-- The per-row PlanDeduct computation (lines 412-444).  The presence
test is `pd.notna`, so an empty-string cell counts as present; `none`
means the loop body never assigned `PlanDeduct` for this row. -/
def planDeductForRow (defaultDeduct : String) (cols : List String)
    (dvals : List (Nat × String)) (r : RowN) : Option String :=
  if defaultDeduct ≠ "" ∧ cols.contains ("Deduct" ++ defaultDeduct) ∧
      (cellOf r ("Deduct" ++ defaultDeduct)).isSome then
    some defaultDeduct
  else if cols.contains "Class" ∧ (cellOf r "Class").isSome ∧
      (strUpper (strTrim ((cellOf r "Class").getD "")) = "C" ∨
        strUpper (strTrim ((cellOf r "Class").getD "")) = "D") then
    firstAvailDeduct dvals r
  else if cols.contains "Deduct100" ∧ (cellOf r "Deduct100").isSome then
    some "100"
  else
    firstAvailDeduct dvals r

/-- Column-reordering helper of lines 463-484: append the names from
`xs` that pass `keep` and are not yet in the accumulator. -/
def appendOrder (acc : List String) (xs : List String) (keep : String → Bool) :
    List String :=
  xs.foldl (fun a c => if keep c && !(a.contains c) then a ++ [c] else a) acc

/-- `DataProcessor._add_plan_deduct_column` (lines 372-496): compute
PlanDeduct per row by the four-rule priority, then reorder columns. -/
def add_plan_deduct_column (defaultDeduct : String) (f : Frame) : Frame :=
  if frameIsEmpty f then f
  else
    let deductCols := f.cols.filter (fun c => strStarts c "Deduct" && c ≠ "PlanDeduct")
    if deductCols.isEmpty then f
    else
      let dvals := deductValuesOf deductCols
      let cols1 := if f.cols.contains "PlanDeduct" then f.cols else f.cols ++ ["PlanDeduct"]
      let rows1 :=
        if f.cols.contains "PlanDeduct" then f.rows
        else f.rows.map (fun r => r ++ [("PlanDeduct", (none : Cell))])
      let rows2 := rows1.map (fun r =>
        match planDeductForRow defaultDeduct cols1 dvals r with
        | some v => upsertA "PlanDeduct" (some v) r
        | none => r)
      let desired := ["CompanyCode", "Term", "Miles", "FromMiles", "ToMiles",
        "Coverage", "State", "Class", "PlanDeduct"]
      let remaining := ["Markup", "New/Used", "MaxYears", "SurchargeCode",
        "PlanCode", "RateCardCode", "ClassListCode", "MinYear", "IncSCode", "IncSAmt"]
      let o1 := desired.filter (fun c => cols1.contains c)
      let o2 := appendOrder o1 (dvals.map Prod.snd) (fun c => cols1.contains c)
      let o3 := appendOrder o2 remaining (fun c => cols1.contains c)
      let o4 := appendOrder o3 cols1 (fun _ => true)
      { cols := o4, rows := rows2.map (fun r => o4.map (fun c => (c, cellOf r c))) }

/-! ## DataProcessor.integrate_with_template (lines 324-370) -/

/-- The fixed template column list (lines 339-345). -/
def templateColumns : List String :=
  ["CompanyCode", "Term", "Miles", "FromMiles", "ToMiles", "Coverage",
   "State", "Class", "PlanDeduct", "Deduct0", "Deduct50", "Deduct100",
   "Deduct200", "Deduct250", "Deduct500", "Markup", "New/Used", "MaxYears",
   "SurchargeCode", "PlanCode", "RateCardCode", "ClassListCode", "MinYear",
   "IncScCode", "IncScAmt"]

/-- The value `integrate_with_template` writes for row `r` in column
`c` (lines 350-361): the transformed cell through `fillna('')` when the
column exists, else the empty string, with textual `nan`/`None`/`NaN`
normalised to empty. -/
def integCell (transformed : Frame) (r : RowN) (c : String) : String :=
  let v := if transformed.cols.contains c then (cellOf r c).getD "" else ""
  if v = "nan" || v = "None" || v = "NaN" then "" else v

/-- `DataProcessor.integrate_with_template` (lines 324-370): build a
result with exactly the fixed template columns, copying columns present
in the transformed data (`fillna('')`), filling absent ones with the
empty string, and normalising textual `nan`/`None`/`NaN` to empty.  The
template path argument is never consulted for structure.

`result_df` starts with an empty index; pandas adopts the transformed
data's index only on the first Series assignment, i.e. when some
template column occurs in the transformed data.  If none does, every
assignment is the scalar `''` broadcast over the empty index and the
result has zero rows.  Columns scalar-assigned before the first Series
assignment are reindexed to `NaN`, turned into the string `nan` by
`astype(str)` and then replaced by `''`, so all cells are as
`integCell` computes them. -/
def integrate_with_template (transformed : Frame) (_templatePath : String) : Frame :=
  if templateColumns.any (fun c => transformed.cols.contains c) then
    { cols := templateColumns
      rows := transformed.rows.map (fun r =>
        templateColumns.map (fun c => (c, some (integCell transformed r c)))) }
  else
    { cols := templateColumns, rows := [] }

/-! ## MappingSystem (src/mapping_system.py) -/

/-- One entry of `column_mapping_suggestions` (keyed by lowercased
field name). -/
structure Suggestion where
  suggestedColumn : String
  confidence : Nat
deriving Repr, DecidableEq

/-- The part of a file-structure analysis that `generate_mapping`
consumes. -/
structure SourceStructure where
  sourceCols : List String
  suggestions : List (String × Suggestion)
deriving Repr, DecidableEq

/-- The default `required_fields` list of `MappingSystem.__init__`. -/
def requiredFieldsMS : List String :=
  ["CompanyCode", "Term", "Miles", "FromMiles", "ToMiles", "Coverage",
   "State", "Class", "PlanDeduct", "Deduct0", "Deduct50", "Deduct100",
   "Deduct200", "Deduct250", "Deduct500", "Markup", "New/Used", "MaxYears",
   "SurchargeCode", "PlanCode", "RateCardCode", "ClassListCode", "MinYear",
   "IncScCode", "IncScAmt"]

/-- STEP 2 of `generate_mapping` (lines 73-85): adopt suggestions with
confidence at least 90. -/
def suggestPass (required : List String) (sug : List (String × Suggestion))
    (m0 : List (String × String)) : List (String × String) :=
  required.foldl (fun m f =>
    match lookupA sug (strLower f) with
    | some s => if s.confidence ≥ 90 then upsertA f s.suggestedColumn m else m
    | none => m) m0

/-- STEP 3 (lines 87-98): first source column whose lowercased name
equals the lowercased field name. -/
def exactPass (required : List String) (sourceCols : List String)
    (m0 : List (String × String)) : List (String × String) :=
  required.foldl (fun m f =>
    if hasKeyA m f then m
    else
      match sourceCols.find? (fun c => strLower c = strLower f) with
      | some c => upsertA f c m
      | none => m) m0

/-- Fields excluded from the content pass (line 101). -/
def protectedFields : List String := ["RateCardCode", "RateCost"]

/-- Remove the spaces of a string: model of `s.replace(" ", "")`. -/
def stripSpaces (s : String) : String := ⟨s.data.filter (fun c => c ≠ ' ')⟩

/-- The inner loop of STEP 5 (lines 110-125): the first source column
that is not already a mapping value and matches the field exactly
(score 100) or up to spaces (score 90). -/
def contentBest (m : List (String × String)) (cols : List String) (fl : String) :
    Option (String × Nat) :=
  match cols with
  | [] => none
  | c :: rest =>
    if (valuesA m).contains c then contentBest m rest fl
    else if strLower c = fl then some (c, 100)
    else if stripSpaces fl = stripSpaces (strLower c) then some (c, 90)
    else contentBest m rest fl

/-- STEP 5 (lines 103-129): content pass over the fields still
unmapped, skipping the protected fields. -/
def contentPass (required : List String) (cols : List String)
    (m0 : List (String × String)) : List (String × String) :=
  required.foldl (fun m f =>
    if hasKeyA m f || protectedFields.contains f then m
    else
      match contentBest m cols (strLower f) with
      | some (c, _) => upsertA f c m
      | none => m) m0

/-- `MappingSystem.generate_mapping` (lines 53-139) on an analysed
structure, modulo the recorded confidences. -/
def generate_mapping (required : List String) (st : SourceStructure) :
    List (String × String) :=
  contentPass required st.sourceCols
    (exactPass required st.sourceCols
      (suggestPass required st.suggestions []))

/-- Per-column profile data as consumed by
`MappingSystem._generate_file_signature`; the fields beyond `dataType`
model the rest of a column analysis (samples, statistics) and are
ignored by the signature. -/
structure FAColInfo where
  dataType : Option String
  sampleValues : List String
  distinctCount : Nat
  nullCount : Nat
deriving Repr, DecidableEq

/-- `structure['columns'][col].get('data_type', 'unknown')`. -/
def typeOfCol (info : List (String × FAColInfo)) (c : String) : String :=
  (((lookupA info c).bind (fun i => i.dataType))).getD "unknown"

/-- `sorted(list(keys))`. -/
def sortStrings (l : List String) : List String := l.insertionSort (· ≤ ·)

/-- `MappingSystem._generate_file_signature` (lines 234-253): the data
hashed is `str(sorted column names) + str(data types in that order)`.
The MD5 digest is a deterministic function of this pair, so the
signature is modelled by the hash preimage: equal pairs give equal
digests. -/
def signatureData (info : List (String × FAColInfo)) : List String × List String :=
  let columns := sortStrings (info.map Prod.fst)
  (columns, columns.map (typeOfCol info))

/-! ## MappingConfigManager.get_recent_mappings (src/config_manager.py) -/

/-- The metadata block of a stored mapping. -/
structure MapMeta where
  lastUsed : Option String
  name : Option String
deriving Repr, DecidableEq

/-- A stored mapping record: mapping fields plus optional metadata. -/
structure StoredMapping where
  fields : List (String × String)
  meta : Option MapMeta
deriving Repr, DecidableEq

/-- The persisted store: `file_mappings` (by signature) and
`named_templates` (by name). -/
structure MappingStore where
  fileMappings : List (String × StoredMapping)
  namedTemplates : List (String × StoredMapping)
deriving Repr, DecidableEq

/-- One element of the list `get_recent_mappings` builds. -/
structure RecentEntry where
  signature : String
  mapping : StoredMapping
  lastUsed : String
  name : String
deriving Repr, DecidableEq

/-- Model of the slice `s[:n]`. -/
def strTake (s : String) (n : Nat) : String := ⟨s.data.take n⟩

/-- Lines 342-352: collect candidates.  Only `file_mappings` is
scanned; a record qualifies when it has a metadata dict with a truthy
`last_used`. -/
def recentCandidates (st : MappingStore) : List RecentEntry :=
  st.fileMappings.filterMap (fun p =>
    match p.2.meta with
    | none => none
    | some md =>
      match md.lastUsed with
      | none => none
      | some lu =>
        if lu = "" then none
        else some { signature := p.1, mapping := p.2, lastUsed := lu,
                    name := md.name.getD ("Mapping " ++ strTake p.1 8) })

/-- Stable descending insertion by `lastUsed` (an element moves before
`x` only when `x` is strictly smaller, so equal keys keep their
order). -/
def insertRecentDesc (e : RecentEntry) : List RecentEntry → List RecentEntry
  | [] => [e]
  | x :: xs =>
    if x.lastUsed < e.lastUsed then e :: x :: xs else x :: insertRecentDesc e xs

/-- Model of Python's stable `list.sort(key=..., reverse=True)`. -/
def sortRecentDesc (l : List RecentEntry) : List RecentEntry :=
  l.foldl (fun acc e => insertRecentDesc e acc) []

/-- `MappingConfigManager.get_recent_mappings` (lines 329-358). -/
def get_recent_mappings (st : MappingStore) (limit : Nat) : List RecentEntry :=
  (sortRecentDesc (recentCandidates st)).take limit

/-! ## FileAnalyzer.suggest_column_mappings (src/file_analyzer.py lines 546-645)

The three fuzzy similarity metrics come from the external `fuzzywuzzy`
package, so the matching loop is parametrised by the three score
functions (`fuzz.ratio`, `fuzz.partial_ratio`,
`fuzz.token_sort_ratio`); the loop logic itself is translated from the
source.
-/

/-- A source column as the analyzer sees it: its name and the
optionally detected semantic type. -/
structure ColEntry where
  name : String
  possibleType : Option String
deriving Repr, DecidableEq

/-- The running `(best_match, best_score)` state of the matching loop
for one required field. -/
structure MatchState where
  bestMatch : Option String
  bestScore : Nat
deriving Repr, DecidableEq

/-- The best fuzzy score of one (column, synonym) pair (lines 616-621):
the maximum of edit-distance ratio, best-substring ratio and token-sort
ratio. -/
def fuzzyMax (rf sr tk : String → String → Nat) (colLower syn : String) : Nat :=
  max (rf colLower syn) (max (sr colLower syn) (tk colLower syn))

/-- The synonym-substring loop of lines 604-611: a synonym contained in
the column name scores 80 when that beats the current best. -/
def synPass (col : ColEntry) (syns : List String) (st : MatchState) : MatchState :=
  syns.foldl (fun s syn =>
    if strContains (strLower col.name) syn then
      if 80 > s.bestScore then { bestMatch := some col.name, bestScore := 80 } else s
    else s) st

/-- One iteration of the fuzzy loop (lines 615-626): a pair's score is
adopted when it beats the current best and strictly exceeds the 60
threshold. -/
def fuzzyStep (rf sr tk : String → String → Nat) (col : ColEntry)
    (s : MatchState) (syn : String) : MatchState :=
  if fuzzyMax rf sr tk (strLower col.name) syn > s.bestScore ∧
      fuzzyMax rf sr tk (strLower col.name) syn > 60 then
    { bestMatch := some col.name,
      bestScore := fuzzyMax rf sr tk (strLower col.name) syn }
  else s

/-- The fuzzy loop of lines 613-626: runs only while the best score is
below 80. -/
def fuzzyPass (rf sr tk : String → String → Nat) (requiredField : String)
    (col : ColEntry) (syns : List String) (st : MatchState) : MatchState :=
  if st.bestScore < 80 then
    (syns ++ [requiredField]).foldl (fuzzyStep rf sr tk col) st
  else st

/-- The detected-type check of lines 629-635: a matching semantic type
scores 90 when that beats the current best. -/
def typePass (requiredField : String) (col : ColEntry) (st : MatchState) : MatchState :=
  match col.possibleType with
  | some t =>
    if t = requiredField then
      if 90 > st.bestScore then { bestMatch := some col.name, bestScore := 90 }
      else st
    else st
  | none => st

/-- The body of the per-column loop (lines 593-635) for one column;
the returned flag is true when the exact-name match broke the loop. -/
def processCol (rf sr tk : String → String → Nat) (requiredField : String)
    (syns : List String) (st : MatchState) (col : ColEntry) : MatchState × Bool :=
  if strLower col.name = requiredField then
    ({ bestMatch := some col.name, bestScore := 100 }, true)
  else
    (typePass requiredField col
      (fuzzyPass rf sr tk requiredField col syns (synPass col syns st)), false)

/-- The per-field column loop with its break. -/
def matchLoop (rf sr tk : String → String → Nat) (requiredField : String)
    (syns : List String) : List ColEntry → MatchState → MatchState
  | [], st => st
  | c :: rest, st =>
    let p := processCol rf sr tk requiredField syns st c
    if p.2 then p.1 else matchLoop rf sr tk requiredField syns rest p.1

/-- The suggestion `suggest_column_mappings` produces for one required
field (lines 588-643): the final best match and its confidence. -/
def bestMatchFor (rf sr tk : String → String → Nat) (requiredField : String)
    (syns : List String) (cols : List ColEntry) : Option (String × Nat) :=
  let st := matchLoop rf sr tk requiredField syns cols
    { bestMatch := none, bestScore := 0 }
  st.bestMatch.map (fun m => (m, st.bestScore))

/-! ## Application.detect_pivot_columns (src/main.py lines 1703-1794) -/

/-- Column statistics of the adjusted-rates structure analysis. -/
structure PColInfo where
  dataType : Option String
  minValue : Option Int
  maxValue : Option Int
deriving Repr, DecidableEq

/-- The `patterns` block of the structure analysis. -/
structure AdjPatterns where
  hasDeductibleData : Bool
  deductibleColumn : Option String
deriving Repr, DecidableEq

/-- The adjusted-rates structure passed to `detect_pivot_columns`. -/
structure AdjStructure where
  columnsInfo : List (String × PColInfo)
  patterns : AdjPatterns
deriving Repr, DecidableEq

/-- Line 1724. -/
def deductiblePatterns : List String := ["deductible", "deduct", "ded", "deduc"]

/-- Line 1725. -/
def rateCostPatterns : List String := ["ratecost", "rate cost", "cost", "price", "premium", "rate"]

/-- First source column whose lowercased name contains one of the
patterns. -/
def findPatCol (cols : List String) (pats : List String) : Option String :=
  cols.find? (fun c => pats.any (fun p => strContains (strLower c) p))

/-- `Application.detect_pivot_columns` (lines 1703-1794): returns the
(possibly extended) mapping; unresolved fields only produce log
warnings, never an exception. -/
def detect_pivot_columns (sourceColumns : List String)
    (mapping : List (String × String)) (st : AdjStructure) :
    List (String × String) :=
  let hasD0 := hasKeyA mapping "Deductible"
  let hasR0 := hasKeyA mapping "RateCost"
  if hasD0 && hasR0 then mapping
  else
    let p1 :=
      if !hasD0 then
        match findPatCol sourceColumns deductiblePatterns with
        | some c => (upsertA "Deductible" c mapping, true)
        | none => (mapping, false)
      else (mapping, true)
    let q1 :=
      if !hasR0 then
        match findPatCol sourceColumns rateCostPatterns with
        | some c => (upsertA "RateCost" c p1.1, true)
        | none => (p1.1, false)
      else (p1.1, true)
    if !p1.2 || !q1.2 then
      let m2 :=
        if !p1.2 ∧ st.patterns.hasDeductibleData then
          match st.patterns.deductibleColumn with
          | some dc =>
            if dc ≠ "" ∧ sourceColumns.contains dc then upsertA "Deductible" dc q1.1
            else q1.1
          | none => q1.1
        else q1.1
      let numberCols := (st.columnsInfo.filter (fun p =>
        p.2.dataType = some "numeric" && sourceColumns.contains p.1)).map Prod.fst
      let m3 :=
        if !q1.2 then
          match numberCols with
          | [c] => upsertA "RateCost" c m2
          | _ :: _ :: _ =>
            match numberCols.find? (fun c =>
              let mn := ((lookupA st.columnsInfo c).bind (fun i => i.minValue)).getD 0
              let mx := ((lookupA st.columnsInfo c).bind (fun i => i.maxValue)).getD 0
              decide (0 ≤ mn) && decide (mx < 10000)) with
            | some c => upsertA "RateCost" c m2
            | none => m2
          | [] => m2
        else m2
      m3
    else q1.1

/-! ## Concrete instances used by the theorems below -/

/-- The four narrow source rows of the end-to-end pivot scenario. -/
def pivotSrc : Frame :=
  { cols := ["Coverage", "Term", "Tier", "Value"]
    rows :=
      [[("Coverage", some "Basic"), ("Term", some "12"),
        ("Tier", some "0"), ("Value", some "100.50")],
       [("Coverage", some "Basic"), ("Term", some "12"),
        ("Tier", some "50"), ("Value", some "110.00")],
       [("Coverage", some "Basic"), ("Term", some "12"),
        ("Tier", some "100"), ("Value", some "120.00")],
       [("Coverage", some "Premium"), ("Term", some "24"),
        ("Tier", some "100"), ("Value", some "200.75")]] }

/-- The mapping for `pivotSrc`: tier and value columns resolved. -/
def pivotMapping : List (String × String) :=
  [("Coverage", "Coverage"), ("Term", "Term"),
   ("Deductible", "Tier"), ("RateCost", "Value")]

/-- An aggregate row whose tier cells hold empty strings (the
representation the claim about PrimaryTier describes). -/
def pdRowES : RowN :=
  [("Coverage", some "Basic"), ("Class", some "C"),
   ("Deduct0", some ""), ("Deduct50", some ""),
   ("Deduct100", some "45.00"), ("Deduct200", some "60.00")]

/-- A one-row frame around `pdRowES`. -/
def pdFrameES : Frame :=
  { cols := ["Coverage", "Class", "Deduct0", "Deduct50", "Deduct100", "Deduct200"]
    rows := [pdRowES] }

/-- The same aggregate row with null markers instead of empty strings
for the value-less tiers. -/
def pdRowNull : RowN :=
  [("Coverage", some "Basic"), ("Class", some "C"),
   ("Deduct0", none), ("Deduct50", none),
   ("Deduct100", some "45.00"), ("Deduct200", some "60.00")]

/-- A one-row frame around `pdRowNull`. -/
def pdFrameNull : Frame :=
  { cols := ["Coverage", "Class", "Deduct0", "Deduct50", "Deduct100", "Deduct200"]
    rows := [pdRowNull] }

/-- The PlanDeduct value of the first row of a frame. -/
def firstPlanDeduct (f : Frame) : Cell :=
  match f.rows with
  | [] => none
  | r :: _ => cellOf r "PlanDeduct"

/-- A non-empty source frame with no column resembling a tier or value
column, and nothing mapped. -/
def noPivotSrc : Frame :=
  { cols := ["Alpha", "Beta"]
    rows := [[("Alpha", some "1"), ("Beta", some "2")],
             [("Alpha", some "3"), ("Beta", some "4")]] }

/-- A structure analysis with no numeric columns and no detected
deductible data. -/
def noPivotStructure : AdjStructure :=
  { columnsInfo := [], patterns := { hasDeductibleData := false, deductibleColumn := none } }

/-- A stored mapping record carrying a last-used timestamp. -/
def namedOnlyRecord : StoredMapping :=
  { fields := [("Coverage", "Cov")]
    meta := some { lastUsed := some "2024-01-01T00:00:00", name := some "T" } }

/-- A cache state whose only record (with a last-used timestamp) lives
in the by-name index. -/
def namedOnlyStore : MappingStore :=
  { fileMappings := [], namedTemplates := [("T", namedOnlyRecord)] }

/-- A cache state with three by-signature candidates (and one record
without metadata). -/
def recentStore : MappingStore :=
  { fileMappings :=
      [("sigA", { fields := [], meta := some { lastUsed := some "2024-01-02", name := none } }),
       ("sigB", { fields := [], meta := some { lastUsed := some "2024-03-01", name := some "B" } }),
       ("sigC", { fields := [], meta := none }),
       ("sigD", { fields := [], meta := some { lastUsed := some "2024-02-01", name := none } })]
    namedTemplates := [] }

/-- Transformed data with a column outside the fixed template list. -/
def extraColFrame : Frame :=
  { cols := ["CompanyCode", "ExtraCol"]
    rows := [[("CompanyCode", some "AB"), ("ExtraCol", some "x")]] }

/-- An analysed structure whose suggestions point two different fields
at the same source column with confidence at least 90. -/
def sharedSuggestion : SourceStructure :=
  { sourceCols := ["X", "TermCol"]
    suggestions := [("term", { suggestedColumn := "X", confidence := 95 }),
                    ("miles", { suggestedColumn := "X", confidence := 92 })] }

/-- Two column profiles that agree on every (name, type) pair but
differ in enumeration order and sample data. -/
def sigInfoA : List (String × FAColInfo) :=
  [("Term", { dataType := some "integer", sampleValues := ["12", "24"],
              distinctCount := 2, nullCount := 0 }),
   ("Coverage", { dataType := some "string", sampleValues := ["Basic"],
                  distinctCount := 1, nullCount := 0 })]

/-- The same (name, type) pairs as `sigInfoA`, enumerated in the other
order with different samples and statistics. -/
def sigInfoB : List (String × FAColInfo) :=
  [("Coverage", { dataType := some "string", sampleValues := ["Premium", "Gold"],
                  distinctCount := 7, nullCount := 3 }),
   ("Term", { dataType := some "integer", sampleValues := ["36"],
              distinctCount := 5, nullCount := 1 })]

/-- Two narrow rows sharing grouping key and tier but with different
values, used to exercise last-write-wins. -/
def dupRow1 : List (String × String) :=
  [("Coverage", "Basic"), ("Deductible", "100"), ("RateCost", "111.00")]

/-- The later-processed duplicate of `dupRow1`. -/
def dupRow2 : List (String × String) :=
  [("Coverage", "Basic"), ("Deductible", "100"), ("RateCost", "222.00")]

/-- A source column whose name matches nothing structurally, used at
the fuzzy-score boundary. -/
def boundaryCol : ColEntry := { name := "Zq", possibleType := none }

/-- The synonym list of the canonical field `state`. -/
def stateSynonyms : List String := ["state", "location", "region", "territory"]

/-- A second structurally matchless column, scoring 61. -/
def boundaryCol61 : ColEntry := { name := "Qx", possibleType := none }

/-- An edit-distance-ratio stand-in giving score 60 to `Zq` and 61 to
every other column. -/
def wRf : String → String → Nat := fun colLower _ => if colLower = "zq" then 60 else 61

/-- A best-substring-ratio stand-in giving score 0 everywhere. -/
def wSr : String → String → Nat := fun _ _ => 0

/-- A token-sort-ratio stand-in giving score 0 everywhere. -/
def wTk : String → String → Nat := fun _ _ => 0

/-! ## Association-list lemmas -/

theorem lookupA_map_pair {β : Type} (g : String → β) (cs : List String) (c : String)
    (h : c ∈ cs) : lookupA (cs.map (fun x => (x, g x))) c = some (g c) := by
  induction cs with
  | nil => cases h
  | cons x xs ih =>
    simp only [List.map_cons, lookupA]
    by_cases hx : x = c
    · subst hx; simp
    · simp only [hx, if_false]
      exact ih ((List.mem_cons.mp h).resolve_left (fun he => hx he.symm))

theorem lookupA_upsert_self {α : Type} (k : String) (v : α) (l : List (String × α)) :
    lookupA (upsertA k v l) k = some v := by
  induction l with
  | nil => simp [upsertA, lookupA]
  | cons p rest ih =>
    by_cases hk : p.1 = k
    · simp [upsertA, hk, lookupA]
    · simp [upsertA, hk, lookupA, ih]

theorem upsertA_of_hasKey_false {α : Type} (k : String) (v : α) (l : List (String × α))
    (h : hasKeyA l k = false) : upsertA k v l = l ++ [(k, v)] := by
  induction l with
  | nil => rfl
  | cons p rest ih =>
    by_cases hk : p.1 = k
    · exfalso
      simp [hasKeyA, lookupA, hk] at h
    · simp only [upsertA, hk, if_false, List.cons_append, List.cons.injEq, true_and]
      apply ih
      simpa [hasKeyA, lookupA, hk] using h

theorem lookupA_append_left {α : Type} (l₁ l₂ : List (String × α)) (k : String)
    (h : hasKeyA l₁ k = true) : lookupA (l₁ ++ l₂) k = lookupA l₁ k := by
  induction l₁ with
  | nil => simp [hasKeyA, lookupA] at h
  | cons p rest ih =>
    by_cases hk : p.1 = k
    · simp [lookupA, hk]
    · simp only [List.cons_append, lookupA, hk, if_false]
      apply ih
      simpa [hasKeyA, lookupA, hk] using h

theorem lookupA_append_right {α : Type} (l₁ l₂ : List (String × α)) (k : String)
    (h : hasKeyA l₁ k = false) : lookupA (l₁ ++ l₂) k = lookupA l₂ k := by
  induction l₁ with
  | nil => rfl
  | cons p rest ih =>
    by_cases hk : p.1 = k
    · simp [hasKeyA, lookupA, hk] at h
    · simp only [List.cons_append, lookupA, hk, if_false]
      apply ih
      simpa [hasKeyA, lookupA, hk] using h

theorem lookupA_mapAtKey (agg : Agg) (k : String) (f : Entry → Entry) :
    lookupA (mapAtKey agg k f) k = (lookupA agg k).map f := by
  induction agg with
  | nil => rfl
  | cons p rest ih =>
    unfold mapAtKey at ih ⊢
    rw [List.map_cons]
    by_cases hk : p.1 = k
    · rw [if_pos hk]
      simp [lookupA, hk]
    · rw [if_neg hk]
      simp [lookupA, hk, ih]

theorem lookupA_mem {α : Type} {l : List (String × α)} {k : String} {v : α}
    (h : lookupA l k = some v) : (k, v) ∈ l := by
  induction l with
  | nil => simp [lookupA] at h
  | cons p rest ih =>
    by_cases hk : p.1 = k
    · simp only [lookupA, hk, if_true, Option.some.injEq] at h
      subst h
      exact hk ▸ List.mem_cons_self p rest
    · simp only [lookupA, hk, if_false] at h
      exact List.mem_cons_of_mem _ (ih h)

theorem lookupA_eq_some_of_mem {α : Type} {l : List (String × α)} {k : String} {v : α}
    (hn : (l.map Prod.fst).Nodup) (h : (k, v) ∈ l) : lookupA l k = some v := by
  induction l with
  | nil => cases h
  | cons p rest ih =>
    rcases List.mem_cons.mp h with he | hm
    · subst he; simp [lookupA]
    · have hk : p.1 ≠ k := by
        intro hk
        have hmem : k ∈ rest.map Prod.fst := List.mem_map.mpr ⟨(k, v), hm, rfl⟩
        rw [List.map_cons, List.nodup_cons] at hn
        exact hn.1 (hk ▸ hmem)
      simp only [lookupA, hk, if_false]
      have hn2 : (rest.map Prod.fst).Nodup := by
        rw [List.map_cons, List.nodup_cons] at hn
        exact hn.2
      exact ih hn2 hm

theorem lookupA_eq_none_iff {α : Type} (l : List (String × α)) (k : String) :
    lookupA l k = none ↔ k ∉ l.map Prod.fst := by
  induction l with
  | nil => simp [lookupA]
  | cons p rest ih =>
    by_cases hk : p.1 = k
    · simp [lookupA, hk]
    · simp only [lookupA, hk, if_false, List.map_cons, List.mem_cons, ih]
      constructor
      · rintro hni (he | hm)
        · exact hk he.symm
        · exact hni hm
      · intro hni hm
        exact hni (Or.inr hm)

/-! ## Settling the claims: concrete-evaluation theorems -/

/-- Claim C3: the four narrow rate rows (Basic,12,tiers 0/50/100) and
(Premium,24,tier 100) pivot to exactly two aggregate rows with
Deduct0/50/100 populated for (Basic,12), Deduct100 for (Premium,24),
and every other tier column empty. -/
theorem pivot_end_to_end :
    (transform_data pivotSrc pivotMapping).rows.length = 2 ∧
    (transform_data pivotSrc pivotMapping).cols.filter
        (fun c => strStarts c "Deduct" && c ≠ "PlanDeduct") =
      ["Deduct0", "Deduct50", "Deduct100", "Deduct200", "Deduct250", "Deduct500"] ∧
    (transform_data pivotSrc pivotMapping).rows.map (fun r =>
        (cellOf r "Coverage", cellOf r "Term", cellOf r "Deduct0", cellOf r "Deduct50",
         cellOf r "Deduct100", cellOf r "Deduct200", cellOf r "Deduct250",
         cellOf r "Deduct500")) =
      [(some "Basic", some "12", some "100.50", some "110.00", some "120.00",
        some "", some "", some ""),
       (some "Premium", some "24", some "", some "", some "200.75",
        some "", some "", some "")] :=
  ⟨rfl, rfl, rfl⟩

/-- Claim C2, counterexample: on the aggregate row whose tiers 0 and 50
hold empty strings, with default tier 50 and Class C, the code selects
PlanDeduct 50 (the `pd.notna` presence test accepts the empty string),
not 100 as the claim states. -/
theorem plan_deduct_default_tier_cex :
    firstPlanDeduct (add_plan_deduct_column "50" pdFrameES) = some "50" ∧
    firstPlanDeduct (add_plan_deduct_column "50" pdFrameES) ≠ some "100" := by
  exact ⟨rfl, by decide⟩

/-- Claim C2, amended: the four-rule priority tests tier presence with
`pd.notna`, so an empty-string cell counts as present.  With default
tier 100 the default rule selects 100; with default tier 50 holding an
empty string the default rule still fires and selects 50; only when the
value-less tiers are null markers does the row with default 50 and
Class C fall to rule (b) and select 100, the lowest non-null tier. -/
theorem plan_deduct_priority :
    firstPlanDeduct (add_plan_deduct_column "100" pdFrameES) = some "100" ∧
    firstPlanDeduct (add_plan_deduct_column "50" pdFrameES) = some "50" ∧
    firstPlanDeduct (add_plan_deduct_column "50" pdFrameNull) = some "100" :=
  ⟨rfl, rfl, rfl⟩

/-- Claim C1, counterexample: a non-empty dataset with no mapped tier
or value field and no column resembling either is returned unchanged by
`transform_data` (a silent pass-through), and `detect_pivot_columns`
leaves the mapping empty without raising; no SchemaError exists on this
path. -/
theorem missing_pivot_passthrough_cex :
    transform_data noPivotSrc [] = noPivotSrc ∧
    noPivotSrc.rows.length = 2 ∧
    detect_pivot_columns ["Alpha", "Beta"] [] noPivotStructure = [] :=
  ⟨rfl, rfl, rfl⟩

/-- Claim C6, counterexample: a record with a last-used timestamp that
lives only in the by-name index is never returned by
`get_recent_mappings`, which scans the by-signature index alone. -/
theorem recent_ignores_named_templates_cex :
    namedOnlyStore.namedTemplates = [("T", namedOnlyRecord)] ∧
    namedOnlyRecord.meta =
      some { lastUsed := some "2024-01-01T00:00:00", name := some "T" } ∧
    get_recent_mappings namedOnlyStore 5 = [] :=
  ⟨rfl, rfl, rfl⟩

/-- Claim C7, counterexample: a transformed column outside the fixed
template list is dropped by `integrate_with_template`; the output
column set does not contain every transformed column. -/
theorem integrate_drops_extra_column_cex :
    "ExtraCol" ∈ extraColFrame.cols ∧
    "ExtraCol" ∉ (integrate_with_template extraColFrame "Template.xlsx").cols := by
  decide

/-- Claim C7, amended: template integration projects the transformed
data onto the fixed 25-column template schema.  The output column set
is exactly `templateColumns` whatever the transformed data or template
path — transformed columns outside the fixed list are dropped, missing
template columns are filled empty — every output cell is a non-null
string, and the row count is preserved exactly when some template
column occurs in the transformed data (otherwise the empty index is
never populated and the result has zero rows). -/
theorem integrate_projects_onto_template (t : Frame) (path : String) :
    (integrate_with_template t path).cols = templateColumns ∧
    (integrate_with_template t path).rows.length =
      (if templateColumns.any (fun c => t.cols.contains c) then t.rows.length else 0) ∧
    ∀ r ∈ (integrate_with_template t path).rows, ∀ c ∈ templateColumns,
      (cellOf r c).isSome := by
  by_cases hidx : templateColumns.any (fun c => t.cols.contains c) = true
  · refine ⟨?_, ?_, ?_⟩
    · unfold integrate_with_template
      rw [if_pos hidx]
    · unfold integrate_with_template
      rw [if_pos hidx, if_pos hidx]
      simp
    · intro r hr c hc
      unfold integrate_with_template at hr
      rw [if_pos hidx] at hr
      simp only [List.mem_map] at hr
      obtain ⟨r0, _, hr0⟩ := hr
      subst hr0
      rw [cellOf, lookupA_map_pair (fun c => some (integCell t r0 c)) templateColumns c hc]
      rfl
  · refine ⟨?_, ?_, ?_⟩
    · unfold integrate_with_template
      rw [if_neg hidx]
    · unfold integrate_with_template
      rw [if_neg hidx, if_neg hidx]
      rfl
    · intro r hr c hc
      unfold integrate_with_template at hr
      rw [if_neg hidx] at hr
      simp at hr

/-! ## Claim C10: the content pass never reuses a source column -/

theorem contentBest_fresh {m : List (String × String)} {cols : List String}
    {fl c : String} {s : Nat} (h : contentBest m cols fl = some (c, s)) :
    c ∉ valuesA m := by
  induction cols with
  | nil => simp [contentBest] at h
  | cons x xs ih =>
    unfold contentBest at h
    by_cases hx : (valuesA m).contains x = true
    · rw [if_pos hx] at h
      exact ih h
    · rw [if_neg hx] at h
      by_cases he : strLower x = fl
      · rw [if_pos he] at h
        injection h with h
        injection h with h1 _
        subst h1
        have hx2 : (valuesA m).contains x = false := Bool.eq_false_iff.mpr hx
        simpa using hx2
      · rw [if_neg he] at h
        by_cases hs : stripSpaces fl = stripSpaces (strLower x)
        · rw [if_pos hs] at h
          injection h with h
          injection h with h1 _
          subst h1
          have hx2 : (valuesA m).contains x = false := Bool.eq_false_iff.mpr hx
          simpa using hx2
        · rw [if_neg hs] at h
          exact ih h

theorem contentPass_decomp (required cols : List String) (m0 : List (String × String)) :
    ∃ extra, contentPass required cols m0 = m0 ++ extra ∧
      (valuesA extra).Nodup ∧ ∀ v ∈ valuesA extra, v ∉ valuesA m0 := by
  induction required generalizing m0 with
  | nil =>
    refine ⟨[], by simp [contentPass], List.nodup_nil, ?_⟩
    intro v hv
    simp [valuesA] at hv
  | cons f fs ih =>
    have hstep : contentPass (f :: fs) cols m0 =
        contentPass fs cols
          (if hasKeyA m0 f || protectedFields.contains f then m0
           else
             match contentBest m0 cols (strLower f) with
             | some (c, _) => upsertA f c m0
             | none => m0) := rfl
    by_cases hm : (hasKeyA m0 f || protectedFields.contains f) = true
    · rw [hstep, if_pos hm]
      exact ih m0
    · rw [hstep, if_neg hm]
      have hkey : hasKeyA m0 f = false :=
        (Bool.or_eq_false_iff.mp (Bool.eq_false_iff.mpr hm)).1
      cases hbest : contentBest m0 cols (strLower f) with
      | none => exact ih m0
      | some p =>
        obtain ⟨c, sc⟩ := p
        have hup : upsertA f c m0 = m0 ++ [(f, c)] := upsertA_of_hasKey_false f c m0 hkey
        dsimp only
        rw [hup]
        obtain ⟨extra1, heq, hnd, hdisj⟩ := ih (m0 ++ [(f, c)])
        refine ⟨(f, c) :: extra1, ?_, ?_, ?_⟩
        · rw [heq, List.append_assoc]
          rfl
        · have hfresh : c ∉ valuesA m0 := contentBest_fresh hbest
          have hc1 : c ∉ valuesA extra1 := by
            intro hcv
            have := hdisj c hcv
            apply this
            simp [valuesA]
          exact List.nodup_cons.mpr ⟨hc1, hnd⟩
        · intro v hv
          rcases List.mem_cons.mp hv with hvc | hvm
          · subst hvc
            exact contentBest_fresh hbest
          · intro hvm0
            apply hdisj v hvm
            simp only [valuesA, List.map_append] at hvm0 ⊢
            exact List.mem_append_left _ hvm0

/-- Claim C10: in the content-based pass of `generate_mapping`, a
source column already used as a mapping value is skipped, so the
columns the pass assigns are pairwise distinct and disjoint from the
incoming mapping's values; the earlier suggestion pass performs no such
check, as witnessed by a structure whose suggestions map two fields to
the same column. -/
theorem content_pass_no_column_reuse :
    (∀ (required cols : List String) (m0 : List (String × String)),
        ∃ extra, contentPass required cols m0 = m0 ++ extra ∧
          (valuesA extra).Nodup ∧ ∀ v ∈ valuesA extra, v ∉ valuesA m0) ∧
    generate_mapping ["Term", "Miles"] sharedSuggestion =
      [("Term", "X"), ("Miles", "X")] :=
  ⟨contentPass_decomp, rfl⟩

/-! ## Claim C1: unresolvable pivot fields give a silent pass-through -/

theorem autoDetectTD_noop (mapping : List (String × String))
    (hD : hasKeyA mapping "Deductible" = false)
    (hR : hasKeyA mapping "RateCost" = false)
    (hd : ∀ k ∈ mapping.map Prod.fst, strContains (strLower k) "deduct" = false)
    (hc : ∀ k ∈ mapping.map Prod.fst,
      (strContains (strLower k) "rate" || strContains (strLower k) "cost" ||
        strContains (strLower k) "premium") = false) :
    autoDetectTD mapping = mapping := by
  have h1 : (mapping.map Prod.fst).filter
      (fun k => strContains (strLower k) "deduct") = [] := by
    rw [List.filter_eq_nil_iff]
    intro a ha
    simp [hd a ha]
  have h2 : (mapping.map Prod.fst).filter (fun k =>
      strContains (strLower k) "rate" || strContains (strLower k) "cost" ||
        strContains (strLower k) "premium") = [] := by
    rw [List.filter_eq_nil_iff]
    intro a ha
    simp [hc a ha]
  unfold autoDetectTD
  rw [if_neg (by simp [hD])]
  simp only [h1, h2, hD, hR]
  simp

/-- Claim C1, amended: when the tier and value fields cannot be
resolved — nothing mapped to Deductible or RateCost, no mapping key
resembling either, no source column matching the deductible or
rate-cost patterns, no detected deductible data and no numeric column —
`transform_data` returns the source dataframe unchanged (a silent
pass-through, logged as a warning) and `detect_pivot_columns` returns
the mapping unchanged; no SchemaError is reported to the caller. -/
theorem missing_pivot_fields_passthrough
    (source : Frame) (mapping : List (String × String))
    (sourceColumns : List String) (mapping2 : List (String × String))
    (st : AdjStructure)
    (hD : hasKeyA mapping "Deductible" = false)
    (hR : hasKeyA mapping "RateCost" = false)
    (hd : ∀ k ∈ mapping.map Prod.fst, strContains (strLower k) "deduct" = false)
    (hc : ∀ k ∈ mapping.map Prod.fst,
      (strContains (strLower k) "rate" || strContains (strLower k) "cost" ||
        strContains (strLower k) "premium") = false)
    (h2D : hasKeyA mapping2 "Deductible" = false)
    (h2R : hasKeyA mapping2 "RateCost" = false)
    (hcolsd : ∀ c ∈ sourceColumns, ∀ p ∈ deductiblePatterns,
      strContains (strLower c) p = false)
    (hcolsr : ∀ c ∈ sourceColumns, ∀ p ∈ rateCostPatterns,
      strContains (strLower c) p = false)
    (hpat : st.patterns.hasDeductibleData = false)
    (hnum : st.columnsInfo.filter (fun p =>
      p.2.dataType = some "numeric" && sourceColumns.contains p.1) = []) :
    transform_data source mapping = source ∧
    detect_pivot_columns sourceColumns mapping2 st = mapping2 := by
  constructor
  · unfold transform_data
    by_cases he : frameIsEmpty source = true
    · rw [if_pos he]
    · rw [if_neg he,
        if_pos (by rw [autoDetectTD_noop mapping hD hR hd hc]; simp [hD])]
  · have hfd : findPatCol sourceColumns deductiblePatterns = none := by
      rw [findPatCol, List.find?_eq_none]
      intro c hcm
      simp only [List.any_eq_true]
      rintro ⟨p, hp, hcp⟩
      rw [hcolsd c hcm p hp] at hcp
      cases hcp
    have hfr : findPatCol sourceColumns rateCostPatterns = none := by
      rw [findPatCol, List.find?_eq_none]
      intro c hcm
      simp only [List.any_eq_true]
      rintro ⟨p, hp, hcp⟩
      rw [hcolsr c hcm p hp] at hcp
      cases hcp
    unfold detect_pivot_columns
    rw [if_neg (by simp [h2D])]
    simp only [h2D, h2R, hfd, hfr, hpat, hnum]
    simp

/-- Witness for claim C1: the concrete two-column dataset with an empty
mapping and a structure analysis with no numeric columns. -/
theorem missing_pivot_fields_passthrough_witness :
    transform_data noPivotSrc [] = noPivotSrc ∧
    detect_pivot_columns ["Alpha", "Beta"] [] noPivotStructure = [] :=
  missing_pivot_fields_passthrough noPivotSrc [] ["Alpha", "Beta"] [] noPivotStructure
    (by decide) (by decide) (by decide) (by decide) (by decide) (by decide)
    (by decide) (by decide) (by decide) (by decide)

/-! ## Claim C5: the signature only depends on the (name, type) set -/

theorem lookupA_map_snd {α β : Type} (g : α → β) (s : List (String × α)) (c : String) :
    lookupA (s.map (fun p => (p.1, g p.2))) c = (lookupA s c).map g := by
  induction s with
  | nil => rfl
  | cons p rest ih =>
    by_cases hk : p.1 = c
    · simp [lookupA, hk]
    · simp [lookupA, hk, ih]

theorem lookupA_of_perm {α : Type} {s t : List (String × α)}
    (h : List.Perm s t) (hs : (s.map Prod.fst).Nodup) (c : String) :
    lookupA s c = lookupA t c := by
  have ht : (t.map Prod.fst).Nodup := ((h.map Prod.fst).nodup_iff).mp hs
  cases hv : lookupA s c with
  | some v =>
    exact (lookupA_eq_some_of_mem ht (h.mem_iff.mp (lookupA_mem hv))).symm
  | none =>
    have hni : c ∉ s.map Prod.fst := (lookupA_eq_none_iff s c).mp hv
    have hnt : c ∉ t.map Prod.fst := fun hm => hni ((h.map Prod.fst).mem_iff.mpr hm)
    exact ((lookupA_eq_none_iff t c).mpr hnt).symm

theorem typeOfCol_congr (s t : List (String × FAColInfo)) (c : String)
    (h : lookupA (s.map (fun p => (p.1, p.2.dataType))) c =
      lookupA (t.map (fun p => (p.1, p.2.dataType))) c) :
    typeOfCol s c = typeOfCol t c := by
  unfold typeOfCol
  rw [lookupA_map_snd (fun i => i.dataType) s c,
    lookupA_map_snd (fun i => i.dataType) t c] at h
  cases hs : lookupA s c with
  | none =>
    rw [hs] at h
    cases ht : lookupA t c with
    | none => rfl
    | some j => rw [ht] at h; cases h
  | some i =>
    rw [hs] at h
    cases ht : lookupA t c with
    | none => rw [ht] at h; cases h
    | some j =>
      rw [ht] at h
      injection h with h
      simp [h]

/-- Claim C5: the mapping signature is a deterministic function of the
set of (field name, type) pairs alone: two structures whose
(name, type) pairs are a permutation of one another — whatever the
enumeration order, sample values or per-column statistics — produce the
same signature data, hence the same MD5 signature. -/
theorem signature_order_independent (s t : List (String × FAColInfo))
    (hs : (s.map Prod.fst).Nodup)
    (hperm : List.Perm (s.map (fun p => (p.1, p.2.dataType)))
      (t.map (fun p => (p.1, p.2.dataType)))) :
    signatureData s = signatureData t := by
  have hkeys : List.Perm (s.map Prod.fst) (t.map Prod.fst) := by
    have h1 := hperm.map Prod.fst
    simpa [List.map_map, Function.comp] using h1
  have hsorteq : sortStrings (s.map Prod.fst) = sortStrings (t.map Prod.fst) :=
    List.eq_of_perm_of_sorted
      ((List.perm_insertionSort _ _).trans (hkeys.trans (List.perm_insertionSort _ _).symm))
      (List.sorted_insertionSort _ _) (List.sorted_insertionSort _ _)
  have hsnodup : ((s.map (fun p => (p.1, p.2.dataType))).map Prod.fst).Nodup := by
    simpa [List.map_map, Function.comp] using hs
  have htypes : ∀ c, typeOfCol s c = typeOfCol t c := fun c =>
    typeOfCol_congr s t c (lookupA_of_perm hperm hsnodup c)
  unfold signatureData
  rw [hsorteq]
  have hmap : (sortStrings (t.map Prod.fst)).map (typeOfCol s) =
      (sortStrings (t.map Prod.fst)).map (typeOfCol t) :=
    List.map_congr_left (fun c _ => htypes c)
  dsimp only
  rw [hmap]

/-- Witness for claim C5: two concrete structures with the same
(name, type) pairs in opposite orders and different samples share their
signature data. -/
theorem signature_order_independent_witness :
    signatureData sigInfoA = signatureData sigInfoB :=
  signature_order_independent sigInfoA sigInfoB (by decide) (by decide)

/-! ## Claim C6: recent mappings come from the by-signature index -/

theorem recentCandidates_spec (st : MappingStore) :
    ∀ e ∈ recentCandidates st,
      (e.signature, e.mapping) ∈ st.fileMappings ∧
      ∃ md, e.mapping.meta = some md ∧ md.lastUsed = some e.lastUsed ∧
        e.lastUsed ≠ "" := by
  intro e he
  rw [recentCandidates, List.mem_filterMap] at he
  obtain ⟨p, hp, hf⟩ := he
  cases hm : p.2.meta with
  | none => rw [hm] at hf; cases hf
  | some md =>
    rw [hm] at hf
    dsimp only at hf
    cases hl : md.lastUsed with
    | none => rw [hl] at hf; cases hf
    | some lu =>
      rw [hl] at hf
      dsimp only at hf
      by_cases hlu : lu = ""
      · rw [if_pos hlu] at hf; cases hf
      · rw [if_neg hlu] at hf
        injection hf with hf
        subst hf
        exact ⟨hp, md, hm, hl, hlu⟩

theorem mem_insertRecentDesc {y e : RecentEntry} {l : List RecentEntry}
    (h : y ∈ insertRecentDesc e l) : y = e ∨ y ∈ l := by
  induction l with
  | nil => simpa [insertRecentDesc] using h
  | cons x xs ih =>
    unfold insertRecentDesc at h
    by_cases hx : x.lastUsed < e.lastUsed
    · rw [if_pos hx] at h
      rcases List.mem_cons.mp h with h1 | h2
      · exact Or.inl h1
      · exact Or.inr h2
    · rw [if_neg hx] at h
      rcases List.mem_cons.mp h with h1 | h2
      · exact Or.inr (h1 ▸ List.mem_cons_self x xs)
      · rcases ih h2 with h3 | h4
        · exact Or.inl h3
        · exact Or.inr (List.mem_cons_of_mem x h4)

theorem perm_insertRecentDesc (e : RecentEntry) (l : List RecentEntry) :
    List.Perm (insertRecentDesc e l) (e :: l) := by
  induction l with
  | nil => simp [insertRecentDesc]
  | cons x xs ih =>
    unfold insertRecentDesc
    by_cases hx : x.lastUsed < e.lastUsed
    · rw [if_pos hx]
    · rw [if_neg hx]
      exact (ih.cons x).trans (List.Perm.swap e x xs)

theorem pairwise_insertRecentDesc (e : RecentEntry) (l : List RecentEntry)
    (h : l.Pairwise (fun a b => b.lastUsed ≤ a.lastUsed)) :
    (insertRecentDesc e l).Pairwise (fun a b => b.lastUsed ≤ a.lastUsed) := by
  induction l with
  | nil => simp [insertRecentDesc]
  | cons x xs ih =>
    rw [List.pairwise_cons] at h
    unfold insertRecentDesc
    by_cases hx : x.lastUsed < e.lastUsed
    · rw [if_pos hx]
      refine List.pairwise_cons.mpr ⟨?_, List.pairwise_cons.mpr h⟩
      intro y hy
      rcases List.mem_cons.mp hy with h1 | h2
      · exact h1 ▸ le_of_lt hx
      · exact le_trans (h.1 y h2) (le_of_lt hx)
    · rw [if_neg hx]
      refine List.pairwise_cons.mpr ⟨?_, ih h.2⟩
      intro y hy
      rcases mem_insertRecentDesc hy with h1 | h2
      · exact h1 ▸ le_of_not_lt hx
      · exact h.1 y h2

theorem sortRecentDesc_aux_perm (l acc : List RecentEntry) :
    List.Perm (l.foldl (fun acc e => insertRecentDesc e acc) acc) (l ++ acc) := by
  induction l generalizing acc with
  | nil => simp
  | cons e es ih =>
    have h1 := ih (insertRecentDesc e acc)
    have h2 : List.Perm (es ++ insertRecentDesc e acc) (es ++ e :: acc) :=
      List.Perm.append_left es (perm_insertRecentDesc e acc)
    have h3 : List.Perm (es ++ e :: acc) (e :: (es ++ acc)) := List.perm_middle
    exact (h1.trans h2).trans h3

theorem sortRecentDesc_perm (l : List RecentEntry) :
    List.Perm (sortRecentDesc l) l := by
  have h := sortRecentDesc_aux_perm l []
  simpa [sortRecentDesc] using h

theorem sortRecentDesc_aux_pairwise (l acc : List RecentEntry)
    (h : acc.Pairwise (fun a b => b.lastUsed ≤ a.lastUsed)) :
    (l.foldl (fun acc e => insertRecentDesc e acc) acc).Pairwise
      (fun a b => b.lastUsed ≤ a.lastUsed) := by
  induction l generalizing acc with
  | nil => exact h
  | cons e es ih => exact ih _ (pairwise_insertRecentDesc e acc h)

theorem sortRecentDesc_pairwise (l : List RecentEntry) :
    (sortRecentDesc l).Pairwise (fun a b => b.lastUsed ≤ a.lastUsed) :=
  sortRecentDesc_aux_pairwise l [] List.Pairwise.nil

/-- Claim C6, amended: `recent(n)` draws its candidates from the
by-signature index alone (the by-name index is never scanned): every
returned entry is a `file_mappings` record with a metadata block and a
truthy last-used timestamp, the result is sorted by last-used
descending, its length is the smaller of `n` and the number of
candidates, and the pre-truncation list is a permutation of all
candidates. -/
theorem recent_only_from_signature_index (st : MappingStore) (limit : Nat) :
    (get_recent_mappings st limit).length = min limit (recentCandidates st).length ∧
    List.Perm (sortRecentDesc (recentCandidates st)) (recentCandidates st) ∧
    (get_recent_mappings st limit).Pairwise (fun a b => b.lastUsed ≤ a.lastUsed) ∧
    ∀ e ∈ get_recent_mappings st limit,
      (e.signature, e.mapping) ∈ st.fileMappings ∧
      ∃ md, e.mapping.meta = some md ∧ md.lastUsed = some e.lastUsed ∧
        e.lastUsed ≠ "" := by
  refine ⟨?_, sortRecentDesc_perm _, ?_, ?_⟩
  · rw [get_recent_mappings, List.length_take,
      (sortRecentDesc_perm (recentCandidates st)).length_eq]
  · exact (sortRecentDesc_pairwise (recentCandidates st)).sublist
      (List.take_sublist _ _)
  · intro e he
    have h1 : e ∈ sortRecentDesc (recentCandidates st) :=
      List.take_subset _ _ he
    exact recentCandidates_spec st e ((sortRecentDesc_perm _).mem_iff.mp h1)

/-! ## Claim C8: the 60-point fuzzy threshold is strict -/

theorem foldl_noop {α β : Type} (f : α → β → α) (l : List β) (st : α)
    (h : ∀ s b, b ∈ l → f s b = s) : l.foldl f st = st := by
  induction l generalizing st with
  | nil => rfl
  | cons b rest ih =>
    rw [List.foldl_cons, h st b (List.mem_cons_self _ _)]
    exact ih st (fun s c hc => h s c (List.mem_cons_of_mem _ hc))

theorem synPass_noop (col : ColEntry) (syns : List String) (st : MatchState)
    (h : ∀ syn ∈ syns, strContains (strLower col.name) syn = false) :
    synPass col syns st = st := by
  unfold synPass
  apply foldl_noop
  intro s syn hsyn
  simp [h syn hsyn]

theorem fuzzyStep_low (rf sr tk : String → String → Nat) (col : ColEntry)
    (s : MatchState) (syn : String)
    (h : fuzzyMax rf sr tk (strLower col.name) syn ≤ 60) :
    fuzzyStep rf sr tk col s syn = s := by
  unfold fuzzyStep
  rw [if_neg]
  rintro ⟨_, hgt⟩
  omega

theorem fuzzy_fold_cap (rf sr tk : String → String → Nat) (col : ColEntry)
    (L : List String) (m : Option String)
    (h : ∀ syn ∈ L, fuzzyMax rf sr tk (strLower col.name) syn ≤ 61) :
    L.foldl (fuzzyStep rf sr tk col) { bestMatch := m, bestScore := 61 } =
      { bestMatch := m, bestScore := 61 } := by
  induction L with
  | nil => rfl
  | cons syn rest ih =>
    rw [List.foldl_cons]
    have hle := h syn (List.mem_cons_self _ _)
    rw [show fuzzyStep rf sr tk col { bestMatch := m, bestScore := 61 } syn =
        { bestMatch := m, bestScore := 61 } from by
      unfold fuzzyStep
      rw [if_neg]
      rintro ⟨hgt, _⟩
      simp at hgt
      omega]
    exact ih (fun s hs => h s (List.mem_cons_of_mem _ hs))

theorem fuzzy_fold_sets61 (rf sr tk : String → String → Nat) (col : ColEntry)
    (L : List String)
    (hle : ∀ syn ∈ L, fuzzyMax rf sr tk (strLower col.name) syn ≤ 61)
    (hex : ∃ syn ∈ L, fuzzyMax rf sr tk (strLower col.name) syn = 61) :
    L.foldl (fuzzyStep rf sr tk col) { bestMatch := none, bestScore := 0 } =
      { bestMatch := some col.name, bestScore := 61 } := by
  induction L with
  | nil => simp at hex
  | cons syn rest ih =>
    rw [List.foldl_cons]
    by_cases h61 : fuzzyMax rf sr tk (strLower col.name) syn = 61
    · rw [show fuzzyStep rf sr tk col { bestMatch := none, bestScore := 0 } syn =
          { bestMatch := some col.name, bestScore := 61 } from by
        unfold fuzzyStep
        rw [if_pos (by constructor <;> simp <;> omega), h61]]
      exact fuzzy_fold_cap rf sr tk col rest (some col.name)
        (fun s hs => hle s (List.mem_cons_of_mem _ hs))
    · have hle60 : fuzzyMax rf sr tk (strLower col.name) syn ≤ 60 := by
        have := hle syn (List.mem_cons_self _ _)
        omega
      rw [fuzzyStep_low rf sr tk col _ syn hle60]
      apply ih (fun s hs => hle s (List.mem_cons_of_mem _ hs))
      obtain ⟨s, hs, hseq⟩ := hex
      rcases List.mem_cons.mp hs with h1 | h2
      · exact absurd (h1 ▸ hseq) h61
      · exact ⟨s, h2, hseq⟩

/-- Claim C8: in fuzzy field matching the 60-point threshold is strict.
For a target field with no structural match (no exact name, no synonym
substring, no detected type), a column whose best fuzzy score over the
target name and its synonyms is exactly 60 is rejected, while a column
scoring 61 is accepted with confidence 61. -/
theorem fuzzy_threshold_boundary (rf sr tk : String → String → Nat)
    (field : String) (syns : List String) (c60 c61 : ColEntry)
    (h60n : strLower c60.name ≠ field)
    (h60s : ∀ syn ∈ syns, strContains (strLower c60.name) syn = false)
    (h60t : c60.possibleType = none)
    (h60le : ∀ syn ∈ syns ++ [field], fuzzyMax rf sr tk (strLower c60.name) syn ≤ 60)
    (h60ex : ∃ syn ∈ syns ++ [field], fuzzyMax rf sr tk (strLower c60.name) syn = 60)
    (h61n : strLower c61.name ≠ field)
    (h61s : ∀ syn ∈ syns, strContains (strLower c61.name) syn = false)
    (h61t : c61.possibleType = none)
    (h61le : ∀ syn ∈ syns ++ [field], fuzzyMax rf sr tk (strLower c61.name) syn ≤ 61)
    (h61ex : ∃ syn ∈ syns ++ [field], fuzzyMax rf sr tk (strLower c61.name) syn = 61) :
    bestMatchFor rf sr tk field syns [c60] = none ∧
    bestMatchFor rf sr tk field syns [c61] = some (c61.name, 61) := by
  have hproc : ∀ (col : ColEntry) (st2 : MatchState),
      strLower col.name ≠ field →
      (∀ syn ∈ syns, strContains (strLower col.name) syn = false) →
      col.possibleType = none →
      (syns ++ [field]).foldl (fuzzyStep rf sr tk col)
        { bestMatch := none, bestScore := 0 } = st2 →
      processCol rf sr tk field syns { bestMatch := none, bestScore := 0 } col =
        (st2, false) := by
    intro col st2 hn hs ht hfold
    unfold processCol
    rw [if_neg hn, synPass_noop col syns _ hs]
    unfold fuzzyPass
    rw [if_pos (by decide : ({ bestMatch := none, bestScore := 0 } :
      MatchState).bestScore < 80), hfold]
    unfold typePass
    rw [ht]
  constructor
  · have hst := foldl_noop (fuzzyStep rf sr tk c60) (syns ++ [field])
      { bestMatch := none, bestScore := 0 }
      (fun s syn hsy => fuzzyStep_low rf sr tk c60 s syn (h60le syn hsy))
    have h1 := hproc c60 { bestMatch := none, bestScore := 0 } h60n h60s h60t hst
    unfold bestMatchFor matchLoop
    rw [h1]
    simp [matchLoop]
  · have hst := fuzzy_fold_sets61 rf sr tk c61 (syns ++ [field]) h61le h61ex
    have h1 := hproc c61 { bestMatch := some c61.name, bestScore := 61 }
      h61n h61s h61t hst
    unfold bestMatchFor matchLoop
    rw [h1]
    simp [matchLoop]

/-- Witness for claim C8: with score functions giving column `Zq`
exactly 60 and column `Qx` exactly 61, `Zq` yields no suggestion and
`Qx` is accepted with confidence 61. -/
theorem fuzzy_threshold_boundary_witness :
    bestMatchFor wRf wSr wTk "state" stateSynonyms [boundaryCol] = none ∧
    bestMatchFor wRf wSr wTk "state" stateSynonyms [boundaryCol61] = some ("Qx", 61) :=
  fuzzy_threshold_boundary wRf wSr wTk "state" stateSynonyms boundaryCol boundaryCol61
    (by decide) (by decide) (by decide) (by decide) (by decide)
    (by decide) (by decide) (by decide) (by decide) (by decide)

/-! ## Claim C9: the finished transform carries every canonical column -/

theorem mem_extendCols_left {c : String} {cs : List String} (new : List String)
    (h : c ∈ cs) : c ∈ extendCols cs new := by
  induction new generalizing cs with
  | nil => exact h
  | cons x xs ih =>
    unfold extendCols
    rw [List.foldl_cons]
    by_cases hx : cs.contains x = true
    · rw [if_pos hx]
      exact ih h
    · rw [if_neg hx]
      exact ih (List.mem_append_left _ h)

theorem mem_extendCols_right {c : String} (cs : List String) {new : List String}
    (h : c ∈ new) : c ∈ extendCols cs new := by
  induction new generalizing cs with
  | nil => cases h
  | cons x xs ih =>
    unfold extendCols
    rw [List.foldl_cons]
    rcases List.mem_cons.mp h with h1 | h2
    · subst h1
      by_cases hx : cs.contains c = true
      · rw [if_pos hx]
        exact mem_extendCols_left xs (by simpa using hx)
      · rw [if_neg hx]
        exact mem_extendCols_left xs (List.mem_append_right _ (List.mem_singleton.mpr rfl))
    · by_cases hx : cs.contains x = true
      · rw [if_pos hx]
        exact ih cs h2
      · rw [if_neg hx]
        exact ih (cs ++ [x]) h2

attribute [irreducible] extendCols

theorem finishFrame_has_required (f : Frame) :
    (∀ c ∈ requiredCols, c ∈ (finishFrame f).cols) ∧
    (∀ c ∈ standardDeducts, c ∈ (finishFrame f).cols) := by
  constructor
  · intro c hc
    exact mem_extendCols_left standardDeducts (mem_extendCols_right f.cols hc)
  · intro c hc
    exact mem_extendCols_right (extendCols f.cols requiredCols) hc

theorem finishFrame_no_nulls (f : Frame) :
    ∀ r ∈ (finishFrame f).rows, ∀ c ∈ (finishFrame f).cols, cellOf r c ≠ none := by
  intro r hr c hc
  have hc2 : c ∈ finishCols f := hc
  simp only [finishFrame, List.mem_map] at hr
  obtain ⟨r0, _, hr0⟩ := hr
  subst hr0
  unfold cellOf
  rw [lookupA_map_pair (fun c => some (((lookupA r0 c).getD none).getD ""))
    (finishCols f) c hc2]
  simp

theorem lookupA_isSome_of_getD_ne {l : List (String × String)} {k : String}
    (h : (lookupA l k).getD "" ≠ "") : ∃ v, lookupA l k = some v := by
  cases hv : lookupA l k with
  | none => exact absurd (by rw [hv]; rfl) h
  | some v => exact ⟨v, rfl⟩

/-- Claim C9: whenever `transform_data` reaches the pivot stage and the
pivot produces at least one aggregate row, the returned dataframe
contains all 19 required canonical columns and all six standard
deductible columns, and every cell of every row is a non-null (string)
value — columns absent from the pivoted data are filled with the empty
string. -/
theorem transform_fills_canonical_columns (source : Frame)
    (mapping : List (String × String))
    (h0 : frameIsEmpty source = false)
    (h1 : (hasKeyA (autoDetectTD mapping) "Deductible" &&
      hasKeyA (autoDetectTD mapping) "RateCost") = true)
    (h2 : (lookupA (tdInverse source mapping) "Deductible").getD "" ≠ "")
    (h3 : (lookupA (tdInverse source mapping) "RateCost").getD "" ≠ "")
    (h4 : frameIsEmpty (tdPivot source mapping) = false) :
    (∀ c ∈ requiredCols, c ∈ (transform_data source mapping).cols) ∧
    (∀ c ∈ standardDeducts, c ∈ (transform_data source mapping).cols) ∧
    ∀ r ∈ (transform_data source mapping).rows,
      ∀ c ∈ (transform_data source mapping).cols, cellOf r c ≠ none := by
  have hDmem : "Deductible" ∈ (tdRenamed source mapping).cols := by
    obtain ⟨v, hv⟩ := lookupA_isSome_of_getD_ne h2
    exact List.mem_map.mpr ⟨("Deductible", v), lookupA_mem hv, rfl⟩
  have hRmem : "RateCost" ∈ (tdRenamed source mapping).cols := by
    obtain ⟨v, hv⟩ := lookupA_isSome_of_getD_ne h3
    exact List.mem_map.mpr ⟨("RateCost", v), lookupA_mem hv, rfl⟩
  have hpath : transform_data source mapping = finishFrame (tdPivot source mapping) := by
    unfold transform_data
    rw [if_neg (by simp [h0]), if_neg (by simp [h1]),
      if_neg (by simp [h2, h3]), if_neg (by simp [hDmem, hRmem]),
      if_neg (by simp [h4])]
  rw [hpath]
  exact ⟨(finishFrame_has_required _).1, (finishFrame_has_required _).2,
    finishFrame_no_nulls _⟩

/-- Witness for claim C9: the end-to-end pivot input reaches the pivot
stage and its output satisfies the column-completeness invariant. -/
theorem transform_fills_canonical_columns_witness :
    (∀ c ∈ requiredCols, c ∈ (transform_data pivotSrc pivotMapping).cols) ∧
    (∀ c ∈ standardDeducts, c ∈ (transform_data pivotSrc pivotMapping).cols) ∧
    ∀ r ∈ (transform_data pivotSrc pivotMapping).rows,
      ∀ c ∈ (transform_data pivotSrc pivotMapping).cols, cellOf r c ≠ none :=
  transform_fills_canonical_columns pivotSrc pivotMapping
    (by decide) (by decide) (by decide) (by decide) (by decide)

/-! ## Claim C4: last-write-wins in the pivot aggregation -/

theorem lookupA_aggEnsure (gc : List String) (agg : Agg) (r : List (String × String)) :
    ∃ e, lookupA (aggEnsure gc agg r) (rowKey gc r) = some e := by
  unfold aggEnsure
  by_cases hk : hasKeyA agg (rowKey gc r) = true
  · rw [if_pos hk]
    exact Option.isSome_iff_exists.mp hk
  · rw [if_neg (by simpa using hk)]
    have hr := lookupA_append_right agg
      [(rowKey gc r, (gc.zip (rowKeyParts gc r)).foldl (fun e p => upsertA p.1 p.2 e) [])]
      (rowKey gc r) (Bool.eq_false_iff.mpr hk)
    refine ⟨(gc.zip (rowKeyParts gc r)).foldl (fun e p => upsertA p.1 p.2 e) [], ?_⟩
    rw [hr]
    simp [lookupA]

theorem aggStep_sets_value (gc : List String) (agg : Agg)
    (r : List (String × String)) (v : String)
    (h1 : rowDeductible r ≠ "")
    (h2 : strLower (rowDeductible r) ≠ "nan")
    (h3 : rowRateCost r = some v)
    (h4 : digitsOf (rowDeductible r) ≠ "") :
    aggValue (aggStep gc agg r) (rowKey gc r)
      ("Deduct" ++ digitsOf (rowDeductible r)) = some v := by
  have hskip : ¬(rowDeductible r = "" ∨ strLower (rowDeductible r) = "nan" ∨
      rowRateCost r = none) := by
    simp [h1, h2, h3]
  unfold aggStep
  rw [if_neg hskip, if_neg h4]
  obtain ⟨e, he⟩ := lookupA_aggEnsure gc agg r
  unfold aggValue
  rw [lookupA_mapAtKey, he]
  simp [h3, lookupA_upsert_self]

/-- Claim C4: when two rows share the same grouping key and the same
tier, the value surviving in the aggregate row's tier column is the one
of the later-processed row (last-write-wins, no averaging). -/
theorem pivot_last_write_wins (gc : List String)
    (rs : List (List (String × String)))
    (r1 r2 : List (String × String)) (v1 v2 : String)
    (hkey : rowKey gc r1 = rowKey gc r2)
    (htier : digitsOf (rowDeductible r1) = digitsOf (rowDeductible r2))
    (h1a : rowDeductible r1 ≠ "") (h1b : strLower (rowDeductible r1) ≠ "nan")
    (h1c : rowRateCost r1 = some v1) (h1d : digitsOf (rowDeductible r1) ≠ "")
    (h2a : rowDeductible r2 ≠ "") (h2b : strLower (rowDeductible r2) ≠ "nan")
    (h2c : rowRateCost r2 = some v2) (h2d : digitsOf (rowDeductible r2) ≠ "") :
    aggValue (pivotAgg gc (rs ++ [r1, r2])) (rowKey gc r2)
      ("Deduct" ++ digitsOf (rowDeductible r2)) = some v2 := by
  unfold pivotAgg
  rw [List.foldl_append]
  simp only [List.foldl]
  exact aggStep_sets_value gc _ r2 v2 h2a h2b h2c h2d

/-- Witness for claim C4: two concrete duplicate rows; the surviving
Deduct100 value is the one of the later row. -/
theorem pivot_last_write_wins_witness :
    aggValue (pivotAgg ["Coverage"] ([] ++ [dupRow1, dupRow2]))
      (rowKey ["Coverage"] dupRow2)
      ("Deduct" ++ digitsOf (rowDeductible dupRow2)) = some "222.00" :=
  pivot_last_write_wins ["Coverage"] [] dupRow1 dupRow2 "111.00" "222.00"
    rfl rfl (by decide) (by decide) rfl (by decide)
    (by decide) (by decide) rfl (by decide)

end MoxyRates
